import Mathlib

/-!
Shallow embedding of the text-rpg engine (src/models.py, src/managers.py,
src/main.py; src/rpg.py is an earlier monolithic prototype of the same code)
together with proofs settling the frozen claims about it.

Modelling conventions:
* Python `int` fields are `Int`; `critical_chance` and its modifiers, the only
  `float` quantities the claims touch, are modelled as `ℚ` (they are only ever
  created by literal assignment and `+`, which the embedding mirrors exactly on
  the representable values occurring in the data).
* Python dicts keyed by strings are association lists `List (String × _)` read
  through `List.lookup`; Python sets of strings are `Finset String`.
* Location objects are identified by their `id` and resolved through a catalog
  function `String → Location`, mirroring the object graph owned by the world
  catalog.
* Mutating methods become functions returning the updated record.
-/

namespace TextRpg

/-- Stat names occurring in `PlayerClass.base_mods` and in the `stat_mod`
effect of passive skills.  `recalculate_stats` applies such an entry with
`setattr(self, stat, getattr(self, stat) + value)`; the stats so modified are
the three live stats (`max_hp`, `attack_power`, `critical_chance`), whose
deltas are carried by the corresponding constructor. -/
inductive StatMod where
  | max_hp (v : Int)
  | attack_power (v : Int)
  | critical_chance (v : ℚ)
deriving DecidableEq, Repr

/-- One entry of `Skill.requirements`: a dict of the shape
`\x7btype: level, value: n\x7d` or `\x7btype: skill, id: s\x7d` (src/models.py
`Skill`, consumed in src/managers.py). -/
inductive Requirement where
  | level (value : Int)
  | skill (id : String)
deriving DecidableEq, Repr

/-- The `combat_ability` sub-dict of a skill effect; `cooldown` may be absent
(`.get("cooldown", 1)` in `ActiveAbility.__init__`). -/
structure CombatAbility where
  damage_bonus : Int
  cooldown : Option Int
deriving DecidableEq, Repr

/-- A skill `effect` dict: `stat_mod` for passive skills (absent modelled as
the empty list, matching the `.get` default), `combat_ability` for
active skills. -/
structure Effect where
  stat_mod : List StatMod
  combat_ability : Option CombatAbility
deriving DecidableEq, Repr

/-- src/models.py `Skill`. -/
structure Skill where
  id : String
  name : String
  description : String
  skill_type : String
  cost : Int
  requirements : List Requirement
  effect : Effect
deriving DecidableEq, Repr

/-- src/models.py `ActiveAbility` (fields). -/
structure ActiveAbility where
  id : String
  name : String
  effect : Effect
  cooldown : Int
  max_cooldown : Int
deriving DecidableEq, Repr

/-- src/models.py `ActiveAbility.__init__(skill)`. -/
def ActiveAbility.ofSkill (skill : Skill) : ActiveAbility :=
  { id := skill.id
    name := skill.name
    effect := skill.effect
    cooldown := 0
    max_cooldown :=
      match skill.effect.combat_ability with
      | some ca => ca.cooldown.getD 1
      | none => 1 }

/-- src/models.py `PlayerClass`.  `skill_pool` is a list of skill ids. -/
structure PlayerClass where
  id : String
  name : String
  short_description : String
  base_mods : List StatMod
  starting_skills : List String
  skill_pool : List String
deriving DecidableEq, Repr

/-- One entry of the `conditions` list of a conditional exit
(src/models.py `Player.check_conditions`). -/
inductive Condition where
  | has_item (item_id : String)
  | quest_completed (quest_id : String)
  | quest_active (quest_id : String)
deriving DecidableEq, Repr

/-- A quest record held in `player.quests` (a dict with `name` and `state`). -/
structure Quest where
  name : String
  state : String
deriving DecidableEq, Repr

/-- An inventory item; only the fields the verified operations read. -/
structure Item where
  id : String
  name : String
deriving DecidableEq, Repr

/-- src/models.py `Potion` (the `Item` base fields plus `heal_amount`). -/
structure Potion where
  id : String
  name : String
  description : String
  value : Int
  heal_amount : Int
deriving DecidableEq, Repr

/-- A combat participant as read by `Potion.use` and by the retreat branch:
src/models.py `Character` (and `Monster`, whose extra fields the verified
operations do not read beyond `attack_power`, `hp` and `name`). -/
structure Character where
  id : String
  name : String
  hp : Int
  max_hp : Int
  attack_power : Int
deriving DecidableEq, Repr

/-- src/world.py `ConditionalExit` (destination held by location id). -/
structure ConditionalExit where
  direction : String
  destination : String
  description : String
  conditions : List Condition
deriving DecidableEq, Repr

/-- src/models.py `Location`, restricted to the fields the verified
operations read.  `exits` maps a direction to the location id of the destination;
`monsters` are the live monsters at the location. -/
structure Location where
  id : String
  name : String
  exits : List (String × String)
  conditional_exits : List ConditionalExit
  monsters : List Character
deriving DecidableEq, Repr

/-- src/models.py `Player` (the fields of `Character.__init__` plus those set
in `Player.__init__`).  Locations are held by id. -/
structure Player where
  id : String
  name : String
  hp : Int
  max_hp : Int
  attack_power : Int
  critical_chance : ℚ
  base_max_hp : Int
  base_attack_power : Int
  base_critical_chance : ℚ
  inventory : List Item
  current_location : String
  previous_location : String
  status_effects : List (String × Int)
  quests : List (String × Quest)
  discovered_locations : Finset String
  level : Int
  xp : Int
  xp_to_next_level : Int
  skill_points : Int
  unlocked_skills : List String
  active_abilities : List ActiveAbility
  class_id : Option String
deriving DecidableEq

/-- src/models.py `Player.__init__(id, name, current_location, hp, max_hp,
attack_power)` (composed with `Character.__init__`). -/
def Player.init (id name current_location : String)
    (hp max_hp attack_power : Int) : Player :=
  { id := id
    name := name
    hp := hp
    max_hp := max_hp
    attack_power := attack_power
    critical_chance := 0
    base_max_hp := max_hp
    base_attack_power := attack_power
    base_critical_chance := 0
    inventory := []
    current_location := current_location
    previous_location := current_location
    status_effects := []
    quests := []
    discovered_locations := ∅
    level := 1
    xp := 0
    xp_to_next_level := 100
    skill_points := 0
    unlocked_skills := []
    active_abilities := []
    class_id := none }

/-- src/models.py `Character.is_alive`. -/
def Player.is_alive (p : Player) : Bool :=
  decide (0 < p.hp)

/-- src/models.py `Player.check_conditions(conditions)`: every condition in
the list must hold; unknown quest entries fail the quest conditions. -/
def Player.check_conditions (p : Player) (conditions : List Condition) : Bool :=
  conditions.all fun condition =>
    match condition with
    | .has_item item_id => p.inventory.any fun item => item.id == item_id
    | .quest_completed quest_id =>
        match p.quests.lookup quest_id with
        | some quest => quest.state == "completed"
        | none => false
    | .quest_active quest_id =>
        match p.quests.lookup quest_id with
        | some quest => quest.state == "active"
        | none => false

/-- src/models.py `Player.move(direction)`: follow an unconditional exit if
one exists in that direction, otherwise the first conditional exit in that
direction whose conditions the player satisfies (the Python loop skips a
matching-direction exit with failing conditions and keeps scanning); on
success record the previous location and mark the destination discovered. -/
def Player.move (locations : String → Location) (p : Player)
    (direction : String) : Player × Bool :=
  let loc := locations p.current_location
  match loc.exits.lookup direction with
  | some dest =>
      ({ p with previous_location := p.current_location,
                current_location := dest,
                discovered_locations := insert dest p.discovered_locations }, true)
  | none =>
      match loc.conditional_exits.find?
          (fun c => c.direction == direction && p.check_conditions c.conditions) with
      | some c =>
          ({ p with previous_location := p.current_location,
                    current_location := c.destination,
                    discovered_locations :=
                      insert c.destination p.discovered_locations }, true)
      | none => (p, false)

/-- src/models.py `Player.retreat()`. -/
def Player.retreat (p : Player) : Player :=
  { p with current_location := p.previous_location }

/-- C10: if `move` returns `False` — no unconditional exit in that direction
and no conditional exit in that direction whose conditions are satisfied —
the player is exactly as before; if it returns `True`, `previous_location` is
the pre-call `current_location`, `current_location` is the destination of
the taken exit, the destination id is added to `discovered_locations`, and no
other field changes. -/
theorem move_frame (locations : String → Location) (p : Player)
    (direction : String) :
    ((p.move locations direction).2 = false ↔
      (locations p.current_location).exits.lookup direction = none ∧
        ∀ c ∈ (locations p.current_location).conditional_exits,
          c.direction = direction → p.check_conditions c.conditions = false)
    ∧ ((p.move locations direction).2 = false → (p.move locations direction).1 = p)
    ∧ ((p.move locations direction).2 = true →
        (p.move locations direction).1 =
          { p with previous_location := p.current_location,
                   current_location := (p.move locations direction).1.current_location,
                   discovered_locations :=
                     insert (p.move locations direction).1.current_location
                       p.discovered_locations }
        ∧ ((locations p.current_location).exits.lookup direction
              = some (p.move locations direction).1.current_location
            ∨ ∃ c ∈ (locations p.current_location).conditional_exits,
                c.direction = direction ∧ p.check_conditions c.conditions = true
                ∧ c.destination = (p.move locations direction).1.current_location)) := by
  simp only [Player.move]
  cases hlk : ((locations p.current_location).exits.lookup direction) with
  | some dest =>
      refine ⟨by simp, by simp, fun _ => ⟨rfl, Or.inl rfl⟩⟩
  | none =>
      cases hfd : ((locations p.current_location).conditional_exits.find?
          (fun c => c.direction == direction && p.check_conditions c.conditions)) with
      | some c =>
          have hmem := List.mem_of_find?_eq_some hfd
          have hc := List.find?_some hfd
          rw [Bool.and_eq_true, beq_iff_eq] at hc
          refine ⟨⟨fun h => absurd h (by simp), fun h => ?_⟩, by simp,
            fun _ => ⟨rfl, Or.inr ⟨c, hmem, hc.1, hc.2, rfl⟩⟩⟩
          · exact absurd (h.2 c hmem hc.1) (by simp [hc.2])
      | none =>
          have hall := List.find?_eq_none.mp hfd
          refine ⟨⟨fun _ => ⟨rfl, fun c hc hdir => ?_⟩, fun _ => rfl⟩,
            fun _ => rfl, by simp⟩
          have := hall c hc
          rw [Bool.and_eq_true, beq_iff_eq] at this
          by_contra hck
          exact this ⟨hdir, by simpa using hck⟩

/-- Models the Python expression `int(t * 1.5)` used by `level_up` for the
new XP threshold: `int()` truncates toward zero, which `Int.tdiv` mirrors
(exactly, for all thresholds within the double-exact range; every threshold
the game constructs is positive, where truncation coincides with floor). -/
def intMul1p5 (t : Int) : Int := Int.tdiv (3 * t) 2

/-- src/models.py `Player.level_up()`: bumps level and base stats, rolls the
XP threshold, fully heals to the (not yet recalculated) live `max_hp`, and
returns `(True, class_choice_triggered)` alongside the updated player. -/
def Player.level_up (p : Player) : Player × Bool × Bool :=
  let p' := { p with
    level := p.level + 1,
    xp := p.xp - p.xp_to_next_level,
    xp_to_next_level := intMul1p5 p.xp_to_next_level,
    base_max_hp := p.base_max_hp + 5,
    base_attack_power := p.base_attack_power + 1,
    skill_points := p.skill_points + 1,
    hp := p.max_hp }
  (p', true, p'.level == 10 && p'.class_id.isNone)

/-- The result of `Player.add_xp`. -/
structure AddXpResult where
  player : Player
  message : String
  leveled_up : Bool
  class_choice_pending : Bool
deriving DecidableEq

/-- The `while self.xp >= self.xp_to_next_level` loop of src/models.py
`Player.add_xp`.  The Python loop does not terminate when
`xp_to_next_level ≤ 0` (the threshold then never outgrows the XP), so the
embedding adds `0 < xp_to_next_level` to the guard to stay total; in every
state the game constructs the threshold is at least 100, where the two loops
agree step for step. -/
def addXpLoop (p : Player) (message : String)
    (leveled_up class_choice_pending : Bool) : AddXpResult :=
  if h : p.xp_to_next_level ≤ p.xp ∧ 0 < p.xp_to_next_level then
    addXpLoop (p.level_up).1
      (message ++ "\n**LEVEL UP!** You are now level "
        ++ toString (p.level_up).1.level ++ "!")
      (p.level_up).2.1 (class_choice_pending || (p.level_up).2.2)
  else ⟨p, message, leveled_up, class_choice_pending⟩
termination_by p.xp.toNat
decreasing_by
  simp only [Player.level_up]
  omega

/-- src/models.py `Player.add_xp(amount)`. -/
def Player.add_xp (p : Player) (amount : Int) : AddXpResult :=
  addXpLoop { p with xp := p.xp + amount }
    ("You gain " ++ toString amount ++ " XP.") false false

/-- Modelled from the spec (claim C2 wording): one level-up iteration —
`level += 1`, `xp -= old threshold`, `xp_to_next_level = floor(old threshold
× 1.5)`, `base_max_hp += 5`, `base_attack_power += 1`, `skill_points += 1`,
and hp restored to `max_hp`. -/
def specLevelUpIteration (p : Player) : Player :=
  { p with
    level := p.level + 1,
    xp := p.xp - p.xp_to_next_level,
    xp_to_next_level := ⌊(p.xp_to_next_level : ℚ) * (3 / 2)⌋,
    base_max_hp := p.base_max_hp + 5,
    base_attack_power := p.base_attack_power + 1,
    skill_points := p.skill_points + 1,
    hp := p.max_hp }

/-- Modelled from the spec (claim C2 wording): perform level-up iterations
while `xp ≥ xp_to_next_level`, with the same totality guard as `addXpLoop`. -/
def specAddXpLoop (p : Player) : Player :=
  if h : p.xp_to_next_level ≤ p.xp ∧ 0 < p.xp_to_next_level then
    specAddXpLoop (specLevelUpIteration p)
  else p
termination_by p.xp.toNat
decreasing_by
  simp only [specLevelUpIteration]
  omega

/-- Modelled from the spec (claim C2 wording): `add_xp` adds `amount` to
`xp` and then runs the level-up iterations. -/
def specAddXp (p : Player) (amount : Int) : Player :=
  specAddXpLoop { p with xp := p.xp + amount }

/-- On positive thresholds, the truncating `int(t * 1.5)` of the code is exactly
the floor of `t × 1.5`. -/
theorem intMul1p5_eq_floor (t : Int) (h : 0 < t) :
    intMul1p5 t = ⌊(t : ℚ) * (3 / 2)⌋ := by
  rw [intMul1p5, Int.tdiv_eq_ediv (by omega) (by omega)]
  rw [show ((t : ℚ) * (3 / 2)) = ((3 * t : Int) : ℚ) / ((2 : ℕ) : ℚ) by
    push_cast; ring]
  rw [Rat.floor_intCast_div_natCast]
  norm_num

/-- Under a positive threshold, a code level-up step is exactly a spec
level-up iteration. -/
theorem level_up_player_eq_spec (p : Player) (h : 0 < p.xp_to_next_level) :
    (p.level_up).1 = specLevelUpIteration p := by
  simp only [Player.level_up, specLevelUpIteration]
  rw [intMul1p5_eq_floor _ h]

/-- The code loop and the spec loop agree on the resulting player. -/
theorem addXpLoop_player_eq_spec (p : Player) (message : String)
    (leveled_up class_choice_pending : Bool) :
    (addXpLoop p message leveled_up class_choice_pending).player =
      specAddXpLoop p := by
  induction p, message, leveled_up, class_choice_pending using addXpLoop.induct with
  | case1 p message leveled_up class_choice_pending h ih =>
      rw [addXpLoop, dif_pos h, specAddXpLoop, dif_pos h]
      rw [← level_up_player_eq_spec p h.2]
      exact ih
  | case2 p message leveled_up class_choice_pending h =>
      rw [addXpLoop, dif_neg h, specAddXpLoop, dif_neg h]

/-- C2: for every player and amount, `add_xp` adds `amount` to `xp` and then
performs level-up iterations while `xp ≥ xp_to_next_level`, each iteration
incrementing `level` by 1, subtracting the old threshold from `xp`, setting
the threshold to `floor(old threshold × 1.5)`, adding 5 to `base_max_hp`, 1
to `base_attack_power` and 1 to `skill_points`, and restoring `hp` to
`max_hp` (proved for all amounts, hence in particular non-negative ones). -/
theorem add_xp_level_loop_spec (p : Player) (amount : Int) :
    (p.add_xp amount).player = specAddXp p amount := by
  rw [Player.add_xp, specAddXp]
  exact addXpLoop_player_eq_spec _ _ _ _

/-- The level-up loop never touches `class_id`. -/
theorem addXpLoop_class_id (p : Player) (message : String)
    (leveled_up class_choice_pending : Bool) :
    (addXpLoop p message leveled_up class_choice_pending).player.class_id =
      p.class_id := by
  induction p, message, leveled_up, class_choice_pending using addXpLoop.induct with
  | case1 p message leveled_up class_choice_pending h ih =>
      rw [addXpLoop, dif_pos h]
      rw [ih]
      simp only [Player.level_up]
  | case2 p message leveled_up class_choice_pending h =>
      rw [addXpLoop, dif_neg h]

/-- The level-up loop never decreases the level. -/
theorem addXpLoop_level_le (p : Player) (message : String)
    (leveled_up class_choice_pending : Bool) :
    p.level ≤ (addXpLoop p message leveled_up class_choice_pending).player.level := by
  induction p, message, leveled_up, class_choice_pending using addXpLoop.induct with
  | case1 p message leveled_up class_choice_pending h ih =>
      rw [addXpLoop, dif_pos h]
      refine le_trans ?_ ih
      simp only [Player.level_up]
      omega
  | case2 p message leveled_up class_choice_pending h =>
      rw [addXpLoop, dif_neg h]

/-- The pending flag produced by the level-up loop: it is set exactly when it
was already set, or when the player has no class and the run of one-per-
iteration level increments crosses level 10 (i.e. some iteration ends at
exactly level 10). -/
theorem addXpLoop_pending_iff (p : Player) (message : String)
    (leveled_up class_choice_pending : Bool) :
    ((addXpLoop p message leveled_up class_choice_pending).class_choice_pending
        = true ↔
      (class_choice_pending = true ∨
        (p.class_id = none ∧ p.level < 10 ∧
          10 ≤ (addXpLoop p message leveled_up class_choice_pending).player.level))) := by
  induction p, message, leveled_up, class_choice_pending using addXpLoop.induct with
  | case1 p message leveled_up class_choice_pending h ih =>
      rw [addXpLoop, dif_pos h]
      rw [ih]
      have hle := addXpLoop_level_le (p.level_up).1
        (message ++ "\n**LEVEL UP!** You are now level "
          ++ toString (p.level_up).1.level ++ "!")
        (p.level_up).2.1 (class_choice_pending || (p.level_up).2.2)
      have htrig : (p.level_up).2.2 = ((p.level + 1 : Int) == 10 && p.class_id.isNone) := by
        simp only [Player.level_up]
      have hcls : (p.level_up).1.class_id = p.class_id := by
        simp only [Player.level_up]
      have hlev : (p.level_up).1.level = p.level + 1 := by
        simp only [Player.level_up]
      rw [htrig] at hle ⊢
      rw [hlev] at hle ⊢
      rw [hcls]
      simp only [Bool.or_eq_true, Bool.and_eq_true, beq_iff_eq,
        Option.isNone_iff_eq_none] at hle ⊢
      constructor
      · rintro ((hpd | ⟨h10, hnone⟩) | ⟨hnone, hlt, hge⟩)
        · exact Or.inl hpd
        · exact Or.inr ⟨hnone, by omega, by omega⟩
        · exact Or.inr ⟨hnone, by omega, hge⟩
      · rintro (hpd | ⟨hnone, hlt, hge⟩)
        · exact Or.inl (Or.inl hpd)
        · by_cases h10 : p.level + 1 = 10
          · exact Or.inl (Or.inr ⟨h10, hnone⟩)
          · exact Or.inr ⟨hnone, by omega, hge⟩
  | case2 p message leveled_up class_choice_pending h =>
      rw [addXpLoop, dif_neg h]
      dsimp only
      constructor
      · exact fun hp => Or.inl hp
      · rintro (hp | ⟨_, hlt, hge⟩)
        · exact hp
        · exact absurd hge (by omega)

/-- C1: `add_xp` returns `class_choice_pending = true` iff some level-up
iteration of that call ends with the level exactly 10 while `class_id` is
unset — equivalently, since each iteration adds exactly one level, iff the
class is unset and the call crosses level 10; `add_xp` never changes
`class_id`, and once `class_id` is set no call returns a pending choice. -/
theorem add_xp_class_choice_trigger (p : Player) (amount : Int) :
    ((p.add_xp amount).class_choice_pending = true ↔
      p.class_id = none ∧ p.level < 10 ∧ 10 ≤ (p.add_xp amount).player.level)
    ∧ (p.add_xp amount).player.class_id = p.class_id
    ∧ (p.class_id ≠ none → (p.add_xp amount).class_choice_pending = false) := by
  have hpend := addXpLoop_pending_iff { p with xp := p.xp + amount }
    ("You gain " ++ toString amount ++ " XP.") false false
  have hcls := addXpLoop_class_id { p with xp := p.xp + amount }
    ("You gain " ++ toString amount ++ " XP.") false false
  rw [Player.add_xp]
  refine ⟨?_, hcls, ?_⟩
  · rw [hpend]
    simp only [Bool.false_eq_true, false_or]
  · intro hset
    rcases hb : (addXpLoop { p with xp := p.xp + amount }
        ("You gain " ++ toString amount ++ " XP.") false false).class_choice_pending with _ | _
    · rfl
    · rw [hb] at hpend
      rcases hpend.mp rfl with hfalse | ⟨hnone, _, _⟩
      · exact absurd hfalse (by simp)
      · exact absurd hnone hset

/-- src/managers.py `SkillTreeManager` (its `skills` dict, keyed by id). -/
structure SkillTreeManager where
  skills : List (String × Skill)
deriving DecidableEq

/-- src/managers.py `ClassManager` (its `classes` dict, keyed by id). -/
structure ClassManager where
  classes : List (String × PlayerClass)
deriving DecidableEq

/-- One `setattr(self, stat, getattr(self, stat) + value)` step of
`recalculate_stats`, for one entry of a `base_mods`/`stat_mod` dict. -/
def applyStatMod (p : Player) (m : StatMod) : Player :=
  match m with
  | .max_hp v => { p with max_hp := p.max_hp + v }
  | .attack_power v => { p with attack_power := p.attack_power + v }
  | .critical_chance v => { p with critical_chance := p.critical_chance + v }

/-- src/models.py `Player.recalculate_stats(skill_tree_manager,
class_manager)`.  The `if self.class_id:` truthiness test is false both for
`None` and for the empty string. -/
def Player.recalculate_stats (p : Player) (skill_tree_manager : SkillTreeManager)
    (class_manager : ClassManager) : Player :=
  let p1 := { p with max_hp := p.base_max_hp,
                     attack_power := p.base_attack_power,
                     critical_chance := p.base_critical_chance }
  let p2 :=
    match p.class_id with
    | some cid =>
        if cid.isEmpty then p1
        else
          match class_manager.classes.lookup cid with
          | some player_class => player_class.base_mods.foldl applyStatMod p1
          | none => p1
    | none => p1
  let p3 := p.unlocked_skills.foldl (fun acc skill_id =>
      match skill_tree_manager.skills.lookup skill_id with
      | some skill =>
          if skill.skill_type == "passive" then
            skill.effect.stat_mod.foldl applyStatMod acc
          else acc
      | none => acc) p2
  { p3 with hp := min p3.hp p3.max_hp }

/-- The `max_hp` delta carried by one stat-modifier entry. -/
def StatMod.maxHpDelta : StatMod → Int
  | .max_hp v => v
  | _ => 0

/-- The `attack_power` delta carried by one stat-modifier entry. -/
def StatMod.attackDelta : StatMod → Int
  | .attack_power v => v
  | _ => 0

/-- The `critical_chance` delta carried by one stat-modifier entry. -/
def StatMod.critDelta : StatMod → ℚ
  | .critical_chance v => v
  | _ => 0

/-- Total `max_hp` delta of a modifier list. -/
def modsMaxHp (mods : List StatMod) : Int := (mods.map StatMod.maxHpDelta).sum

/-- Total `attack_power` delta of a modifier list. -/
def modsAttack (mods : List StatMod) : Int := (mods.map StatMod.attackDelta).sum

/-- Total `critical_chance` delta of a modifier list. -/
def modsCrit (mods : List StatMod) : ℚ := (mods.map StatMod.critDelta).sum

/-- The `base_mods` of the chosen class of the player, as `recalculate_stats`
resolves them: empty when no class is chosen (or the id is falsy or absent
from the catalog). -/
def classBaseMods (class_manager : ClassManager) (p : Player) : List StatMod :=
  match p.class_id with
  | some cid =>
      if cid.isEmpty then []
      else
        match class_manager.classes.lookup cid with
        | some player_class => player_class.base_mods
        | none => []
  | none => []

/-- The concatenated `stat_mod` lists of the unlocked passive skills, in
unlock order. -/
def unlockedPassiveMods (skill_tree_manager : SkillTreeManager)
    (unlocked : List String) : List StatMod :=
  (unlocked.map fun skill_id =>
    match skill_tree_manager.skills.lookup skill_id with
    | some skill =>
        if skill.skill_type == "passive" then skill.effect.stat_mod else []
    | none => []).flatten

/-- One modifier application adds the per-stat deltas of the entry. -/
theorem applyStatMod_closed (p : Player) (m : StatMod) :
    applyStatMod p m = { p with
      max_hp := p.max_hp + m.maxHpDelta,
      attack_power := p.attack_power + m.attackDelta,
      critical_chance := p.critical_chance + m.critDelta } := by
  cases m <;>
    simp [applyStatMod, StatMod.maxHpDelta, StatMod.attackDelta, StatMod.critDelta]

/-- Folding a modifier list adds the per-stat sums of the list. -/
theorem foldl_applyStatMod (mods : List StatMod) (p : Player) :
    mods.foldl applyStatMod p = { p with
      max_hp := p.max_hp + modsMaxHp mods,
      attack_power := p.attack_power + modsAttack mods,
      critical_chance := p.critical_chance + modsCrit mods } := by
  induction mods generalizing p with
  | nil => simp [modsMaxHp, modsAttack, modsCrit]
  | cons m ms ih =>
      rw [List.foldl_cons, ih, applyStatMod_closed]
      simp [modsMaxHp, modsAttack, modsCrit, add_assoc]

/-- Per-stat sums split over concatenation. -/
theorem modsMaxHp_append (a b : List StatMod) :
    modsMaxHp (a ++ b) = modsMaxHp a + modsMaxHp b := by
  simp [modsMaxHp]

/-- Per-stat sums split over concatenation. -/
theorem modsAttack_append (a b : List StatMod) :
    modsAttack (a ++ b) = modsAttack a + modsAttack b := by
  simp [modsAttack]

/-- Per-stat sums split over concatenation. -/
theorem modsCrit_append (a b : List StatMod) :
    modsCrit (a ++ b) = modsCrit a + modsCrit b := by
  simp [modsCrit]

/-- The passive-skill fold of `recalculate_stats` adds the per-stat sums of
the concatenated passive `stat_mod` lists. -/
theorem foldl_passive_closed (skill_tree_manager : SkillTreeManager)
    (unlocked : List String) (p : Player) :
    unlocked.foldl (fun acc skill_id =>
      match skill_tree_manager.skills.lookup skill_id with
      | some skill =>
          if skill.skill_type == "passive" then
            skill.effect.stat_mod.foldl applyStatMod acc
          else acc
      | none => acc) p
    = { p with
        max_hp := p.max_hp + modsMaxHp (unlockedPassiveMods skill_tree_manager unlocked),
        attack_power := p.attack_power
          + modsAttack (unlockedPassiveMods skill_tree_manager unlocked),
        critical_chance := p.critical_chance
          + modsCrit (unlockedPassiveMods skill_tree_manager unlocked) } := by
  induction unlocked generalizing p with
  | nil => simp [unlockedPassiveMods, modsMaxHp, modsAttack, modsCrit]
  | cons skill_id rest ih =>
      rw [List.foldl_cons]
      have hjoin : unlockedPassiveMods skill_tree_manager (skill_id :: rest) =
          (match skill_tree_manager.skills.lookup skill_id with
           | some skill =>
               if skill.skill_type == "passive" then skill.effect.stat_mod else []
           | none => []) ++ unlockedPassiveMods skill_tree_manager rest := by
        simp [unlockedPassiveMods]
      rw [hjoin]
      cases hlk : skill_tree_manager.skills.lookup skill_id with
      | none =>
          dsimp only
          rw [ih]
          simp [modsMaxHp_append, modsAttack_append, modsCrit_append,
            modsMaxHp, modsAttack, modsCrit]
      | some skill =>
          dsimp only
          by_cases hty : skill.skill_type == "passive"
          · rw [if_pos hty, if_pos hty, ih, foldl_applyStatMod]
            rw [modsMaxHp_append, modsAttack_append, modsCrit_append]
            simp [add_assoc]
          · rw [if_neg hty, if_neg hty, ih]
            simp [modsMaxHp_append, modsAttack_append, modsCrit_append,
              modsMaxHp, modsAttack, modsCrit]

/-- Closed form of `recalculate_stats`: the three live stats are the base
stats plus class and passive-skill deltas; `hp` is clamped to the new
`max_hp`; nothing else changes. -/
theorem recalculate_stats_closed (p : Player) (skill_tree_manager : SkillTreeManager)
    (class_manager : ClassManager) :
    p.recalculate_stats skill_tree_manager class_manager = { p with
      max_hp := p.base_max_hp + modsMaxHp (classBaseMods class_manager p)
        + modsMaxHp (unlockedPassiveMods skill_tree_manager p.unlocked_skills),
      attack_power := p.base_attack_power + modsAttack (classBaseMods class_manager p)
        + modsAttack (unlockedPassiveMods skill_tree_manager p.unlocked_skills),
      critical_chance := p.base_critical_chance + modsCrit (classBaseMods class_manager p)
        + modsCrit (unlockedPassiveMods skill_tree_manager p.unlocked_skills),
      hp := min p.hp (p.base_max_hp + modsMaxHp (classBaseMods class_manager p)
        + modsMaxHp (unlockedPassiveMods skill_tree_manager p.unlocked_skills)) } := by
  cases hcid : p.class_id with
  | none =>
      simp only [Player.recalculate_stats, classBaseMods, hcid]
      rw [foldl_passive_closed]
      simp [modsMaxHp, modsAttack, modsCrit]
  | some cid =>
      by_cases hemp : cid.isEmpty
      · simp only [Player.recalculate_stats, classBaseMods, hcid, hemp, if_true]
        rw [foldl_passive_closed]
        simp [modsMaxHp, modsAttack, modsCrit]
      · simp only [Player.recalculate_stats, classBaseMods, hcid, hemp, if_false,
          Bool.false_eq_true]
        cases hlk : class_manager.classes.lookup cid with
        | none =>
            simp only [hlk]
            rw [foldl_passive_closed]
            simp [modsMaxHp, modsAttack, modsCrit]
        | some player_class =>
            simp only [hlk]
            rw [foldl_applyStatMod, foldl_passive_closed]

/-- C4: `recalculate_stats` sets each live stat to its base stat plus the
`base_mods` deltas of the chosen class plus the `stat_mod` deltas of every
unlocked passive skill, and leaves `hp = min (pre-call hp) (new max_hp)` —
in particular `hp` is only ever reduced by the `max_hp` clamp. -/
theorem recalculate_stats_spec (p : Player) (skill_tree_manager : SkillTreeManager)
    (class_manager : ClassManager) :
    (p.recalculate_stats skill_tree_manager class_manager).max_hp
        = p.base_max_hp + modsMaxHp (classBaseMods class_manager p)
          + modsMaxHp (unlockedPassiveMods skill_tree_manager p.unlocked_skills)
    ∧ (p.recalculate_stats skill_tree_manager class_manager).attack_power
        = p.base_attack_power + modsAttack (classBaseMods class_manager p)
          + modsAttack (unlockedPassiveMods skill_tree_manager p.unlocked_skills)
    ∧ (p.recalculate_stats skill_tree_manager class_manager).critical_chance
        = p.base_critical_chance + modsCrit (classBaseMods class_manager p)
          + modsCrit (unlockedPassiveMods skill_tree_manager p.unlocked_skills)
    ∧ (p.recalculate_stats skill_tree_manager class_manager).hp
        = min p.hp (p.recalculate_stats skill_tree_manager class_manager).max_hp := by
  rw [recalculate_stats_closed]
  exact ⟨rfl, rfl, rfl, rfl⟩

/-- Recalculating twice is the same as recalculating once, on the whole
player state. -/
theorem recalculate_stats_idem (p : Player) (skill_tree_manager : SkillTreeManager)
    (class_manager : ClassManager) :
    (p.recalculate_stats skill_tree_manager class_manager).recalculate_stats
        skill_tree_manager class_manager
      = p.recalculate_stats skill_tree_manager class_manager := by
  rw [recalculate_stats_closed p, recalculate_stats_closed]
  simp [classBaseMods, min_assoc]

/-- C5: `recalculate_stats` is idempotent — a second consecutive call with
the same catalogs leaves `max_hp`, `attack_power`, `critical_chance` and
`hp` identical to their values after the first call. -/
theorem recalculate_stats_idempotent (p : Player)
    (skill_tree_manager : SkillTreeManager) (class_manager : ClassManager) :
    ((p.recalculate_stats skill_tree_manager class_manager).recalculate_stats
        skill_tree_manager class_manager).max_hp
      = (p.recalculate_stats skill_tree_manager class_manager).max_hp
    ∧ ((p.recalculate_stats skill_tree_manager class_manager).recalculate_stats
        skill_tree_manager class_manager).attack_power
      = (p.recalculate_stats skill_tree_manager class_manager).attack_power
    ∧ ((p.recalculate_stats skill_tree_manager class_manager).recalculate_stats
        skill_tree_manager class_manager).critical_chance
      = (p.recalculate_stats skill_tree_manager class_manager).critical_chance
    ∧ ((p.recalculate_stats skill_tree_manager class_manager).recalculate_stats
        skill_tree_manager class_manager).hp
      = (p.recalculate_stats skill_tree_manager class_manager).hp := by
  rw [recalculate_stats_idem]
  exact ⟨rfl, rfl, rfl, rfl⟩

/-- The `for req in skill.requirements` loop of src/managers.py
`SkillTreeManager.unlock_skill`: returns the message of the first failing
requirement, or `none` when all requirements hold. -/
def firstUnmetRequirement (skills : List (String × Skill)) (p : Player) :
    List Requirement → Option String
  | [] => none
  | .level value :: rest =>
      if p.level < value then
        some ("You do not meet the level requirement of " ++ toString value ++ ".")
      else firstUnmetRequirement skills p rest
  | .skill rid :: rest =>
      if rid ∈ p.unlocked_skills then firstUnmetRequirement skills p rest
      else
        some ("You need to unlock \x27"
          ++ (match skills.lookup rid with
              | some required_skill => required_skill.name
              | none => rid)
          ++ "\x27 first.")

/-- src/managers.py `SkillTreeManager.unlock_skill(player, skill_id,
class_manager, free=False)` (the `class_manager` argument is accepted but
unused, as in the source). -/
def SkillTreeManager.unlock_skill (skill_tree_manager : SkillTreeManager)
    (p : Player) (skill_id : String) (class_manager : ClassManager)
    (free : Bool) : Player × String :=
  match skill_tree_manager.skills.lookup skill_id with
  | none => (p, "Skill not found.")
  | some skill =>
    if skill_id ∈ p.unlocked_skills then
      (p, "You have already unlocked this skill.")
    else if free = false ∧ p.skill_points < skill.cost then
      (p, "You don\x27t have enough skill points.")
    else
      match firstUnmetRequirement skill_tree_manager.skills p skill.requirements with
      | some msg => (p, msg)
      | none =>
          let p1 := if free = true then p
            else { p with skill_points := p.skill_points - skill.cost }
          let p2 := { p1 with unlocked_skills := p1.unlocked_skills ++ [skill_id] }
          let p3 := if skill.skill_type == "active" then
              { p2 with active_abilities :=
                  p2.active_abilities ++ [ActiveAbility.ofSkill skill] }
            else p2
          (p3, "You have unlocked: " ++ skill.name ++ "!")

/-- Modelled from the claim wording: one unlock requirement is unmet. -/
def requirementUnmet (p : Player) : Requirement → Prop
  | .level value => p.level < value
  | .skill rid => rid ∉ p.unlocked_skills

/-- Modelled from the claim wording: some unlock precondition fails — the
skill is not in the catalog, is already unlocked, costs more points than the
player has (when not free), or has an unmet level or prerequisite-skill
requirement. -/
def unlockFailure (skill_tree_manager : SkillTreeManager) (p : Player)
    (skill_id : String) (free : Bool) : Prop :=
  skill_tree_manager.skills.lookup skill_id = none
  ∨ skill_id ∈ p.unlocked_skills
  ∨ (∃ skill, skill_tree_manager.skills.lookup skill_id = some skill ∧
      ((free = false ∧ p.skill_points < skill.cost)
        ∨ ∃ req ∈ skill.requirements, requirementUnmet p req))

/-- The shapes of the messages `unlock_skill` returns on failure. -/
def IsFailureMessage (s : String) : Prop :=
  s = "Skill not found."
  ∨ s = "You have already unlocked this skill."
  ∨ s = "You don\x27t have enough skill points."
  ∨ (∃ value : Int, s = "You do not meet the level requirement of "
      ++ toString value ++ ".")
  ∨ (∃ n : String, s = "You need to unlock \x27" ++ n ++ "\x27 first.")

/-- The requirements loop returns `none` exactly when every requirement is
met. -/
theorem firstUnmetRequirement_eq_none (skills : List (String × Skill))
    (p : Player) (reqs : List Requirement) :
    firstUnmetRequirement skills p reqs = none ↔
      ∀ req ∈ reqs, ¬ requirementUnmet p req := by
  induction reqs with
  | nil => simp [firstUnmetRequirement]
  | cons req rest ih =>
      cases req with
      | level value =>
          by_cases hlt : p.level < value
          · simp [firstUnmetRequirement, hlt, requirementUnmet]
          · simp [firstUnmetRequirement, hlt, ih, requirementUnmet]
      | skill rid =>
          by_cases hmem : rid ∈ p.unlocked_skills
          · simp [firstUnmetRequirement, hmem, ih, requirementUnmet]
          · simp [firstUnmetRequirement, hmem, requirementUnmet]

/-- When the requirements loop returns a message, it is a failure message. -/
theorem firstUnmetRequirement_some_shape (skills : List (String × Skill))
    (p : Player) (reqs : List Requirement) (msg : String)
    (h : firstUnmetRequirement skills p reqs = some msg) :
    IsFailureMessage msg := by
  induction reqs with
  | nil => simp [firstUnmetRequirement] at h
  | cons req rest ih =>
      cases req with
      | level value =>
          by_cases hlt : p.level < value
          · rw [firstUnmetRequirement, if_pos hlt] at h
            exact Or.inr (Or.inr (Or.inr (Or.inl
              ⟨value, (Option.some_injective _ h).symm⟩)))
          · rw [firstUnmetRequirement, if_neg hlt] at h
            exact ih h
      | skill rid =>
          by_cases hmem : rid ∈ p.unlocked_skills
          · rw [firstUnmetRequirement, if_pos hmem] at h
            exact ih h
          · rw [firstUnmetRequirement, if_neg hmem] at h
            exact Or.inr (Or.inr (Or.inr (Or.inr
              ⟨_, (Option.some_injective _ h).symm⟩)))

/-- C3: `unlock_skill` is atomic on failure — whenever any precondition
fails the returned player is exactly the input player and the message is a
failure message; on success it deducts the cost (unless free), appends the
skill id to `unlocked_skills`, and appends one new `ActiveAbility` exactly
when the type of the skill is active. -/
theorem unlock_skill_atomic (skill_tree_manager : SkillTreeManager) (p : Player)
    (skill_id : String) (class_manager : ClassManager) (free : Bool) :
    (unlockFailure skill_tree_manager p skill_id free →
        (skill_tree_manager.unlock_skill p skill_id class_manager free).1 = p
        ∧ IsFailureMessage
            (skill_tree_manager.unlock_skill p skill_id class_manager free).2)
    ∧ (¬ unlockFailure skill_tree_manager p skill_id free →
        ∃ skill, skill_tree_manager.skills.lookup skill_id = some skill ∧
          (skill_tree_manager.unlock_skill p skill_id class_manager free).1
            = { p with
                skill_points :=
                  if free = true then p.skill_points else p.skill_points - skill.cost,
                unlocked_skills := p.unlocked_skills ++ [skill_id],
                active_abilities := p.active_abilities ++
                  (if skill.skill_type == "active" then [ActiveAbility.ofSkill skill]
                   else []) }
          ∧ (skill_tree_manager.unlock_skill p skill_id class_manager free).2
              = "You have unlocked: " ++ skill.name ++ "!") := by
  cases hlk : skill_tree_manager.skills.lookup skill_id with
  | none =>
      have hres : skill_tree_manager.unlock_skill p skill_id class_manager free
          = (p, "Skill not found.") := by
        simp only [SkillTreeManager.unlock_skill, hlk]
      rw [hres]
      exact ⟨fun _ => ⟨rfl, Or.inl rfl⟩, fun hnf => absurd (Or.inl hlk) hnf⟩
  | some skill =>
      by_cases hunl : skill_id ∈ p.unlocked_skills
      · have hres : skill_tree_manager.unlock_skill p skill_id class_manager free
            = (p, "You have already unlocked this skill.") := by
          simp only [SkillTreeManager.unlock_skill, hlk, if_pos hunl]
        rw [hres]
        exact ⟨fun _ => ⟨rfl, Or.inr (Or.inl rfl)⟩,
          fun hnf => absurd (Or.inr (Or.inl hunl)) hnf⟩
      · by_cases hcost : free = false ∧ p.skill_points < skill.cost
        · have hres : skill_tree_manager.unlock_skill p skill_id class_manager free
              = (p, "You don\x27t have enough skill points.") := by
            simp only [SkillTreeManager.unlock_skill, hlk, if_neg hunl, if_pos hcost]
          rw [hres]
          exact ⟨fun _ => ⟨rfl, Or.inr (Or.inr (Or.inl rfl))⟩,
            fun hnf => absurd (Or.inr (Or.inr ⟨skill, hlk, Or.inl hcost⟩)) hnf⟩
        · cases hreq : firstUnmetRequirement skill_tree_manager.skills p
              skill.requirements with
          | some msg =>
              have hunmet : ∃ req ∈ skill.requirements, requirementUnmet p req := by
                by_contra hall
                push_neg at hall
                have hnone : firstUnmetRequirement skill_tree_manager.skills p
                    skill.requirements = none :=
                  (firstUnmetRequirement_eq_none _ _ _).mpr hall
                rw [hnone] at hreq
                exact Option.noConfusion hreq
              have hres : skill_tree_manager.unlock_skill p skill_id class_manager free
                  = (p, msg) := by
                simp only [SkillTreeManager.unlock_skill, hlk, if_neg hunl,
                  if_neg hcost, hreq]
              rw [hres]
              exact ⟨fun _ => ⟨rfl, firstUnmetRequirement_some_shape _ _ _ _ hreq⟩,
                fun hnf => absurd (Or.inr (Or.inr ⟨skill, hlk, Or.inr hunmet⟩)) hnf⟩
          | none =>
              constructor
              · intro hfail
                rcases hfail with hnone | hmem | ⟨skill', hlk', hor⟩
                · rw [hlk] at hnone; exact Option.noConfusion hnone
                · exact absurd hmem hunl
                · rw [hlk] at hlk'
                  cases Option.some_injective _ hlk'
                  rcases hor with hc | ⟨req, hreqmem, hunmet⟩
                  · exact absurd hc hcost
                  · have hmet := (firstUnmetRequirement_eq_none
                        skill_tree_manager.skills p skill.requirements).mp hreq
                    exact absurd hunmet (hmet req hreqmem)
              · intro _
                refine ⟨skill, rfl, ?_, ?_⟩
                · simp only [SkillTreeManager.unlock_skill, hlk, if_neg hunl,
                    if_neg hcost, hreq]
                  by_cases hfree : free = true
                  · simp only [hfree, if_true]
                    by_cases hact : skill.skill_type == "active"
                    · simp [hact]
                    · simp [hact]
                  · simp only [hfree, if_false]
                    by_cases hact : skill.skill_type == "active"
                    · simp [hact]
                    · simp [hact]
                · simp only [SkillTreeManager.unlock_skill, hlk, if_neg hunl,
                    if_neg hcost, hreq]

/-- Witness for `unlock_skill_atomic` at a concrete failing unlock: the
catalog is empty, so the skill is missing and the player is unchanged. -/
theorem unlock_skill_atomic_witness :
    unlockFailure ⟨[]⟩ (Player.init "player" "Hero" "oakhaven" 20 20 5) "fireball" false
    ∧ ((⟨[]⟩ : SkillTreeManager).unlock_skill
        (Player.init "player" "Hero" "oakhaven" 20 20 5) "fireball" ⟨[]⟩ false).1
      = Player.init "player" "Hero" "oakhaven" 20 20 5 := by
  have hfail : unlockFailure ⟨[]⟩ (Player.init "player" "Hero" "oakhaven" 20 20 5)
      "fireball" false := Or.inl rfl
  exact ⟨hfail, ((unlock_skill_atomic ⟨[]⟩
    (Player.init "player" "Hero" "oakhaven" 20 20 5) "fireball" ⟨[]⟩ false).1 hfail).1⟩

/-- src/managers.py `save_game(player)`: the snapshot dict written to
`save_data.json` (the file write itself is an I/O boundary; locations are
stored by id, inventory by item ids, the discovered set as a list). -/
structure SaveData where
  name : String
  hp : Int
  base_max_hp : Int
  base_attack_power : Int
  base_critical_chance : ℚ
  current_location_id : String
  inventory_ids : List String
  quests : List (String × Quest)
  discovered_locations : List String
  level : Int
  xp : Int
  xp_to_next_level : Int
  skill_points : Int
  unlocked_skills : List String
  class_id : Option String
deriving DecidableEq

/-- src/managers.py `save_game(player)`. -/
def save_game (p : Player) : SaveData :=
  { name := p.name
    hp := p.hp
    base_max_hp := p.base_max_hp
    base_attack_power := p.base_attack_power
    base_critical_chance := p.base_critical_chance
    current_location_id := p.current_location
    inventory_ids := p.inventory.map Item.id
    quests := p.quests
    -- Python serialises `list(player.discovered_locations)` in an
    -- unspecified set-iteration order; the embedding fixes the sorted order.
    discovered_locations := p.discovered_locations.sort (· ≤ ·)
    level := p.level
    xp := p.xp
    xp_to_next_level := p.xp_to_next_level
    skill_points := p.skill_points
    unlocked_skills := p.unlocked_skills
    class_id := p.class_id }

/-- src/managers.py `load_player_from_save(save_data, all_locations,
all_items, skill_tree_manager, class_manager)`.  Locations are modelled by
id, so the `all_locations[...]` lookup resolves to the stored id; `all_items`
is the item catalog (`copy.deepcopy` of a catalog entry is the entry itself
in a value model). -/
def load_player_from_save (save_data : SaveData) (all_items : String → Item)
    (skill_tree_manager : SkillTreeManager) (class_manager : ClassManager) :
    Player :=
  let player := Player.init "player" save_data.name save_data.current_location_id
    save_data.hp save_data.base_max_hp save_data.base_attack_power
  let player := { player with base_critical_chance := save_data.base_critical_chance }
  let player := { player with
    inventory := save_data.inventory_ids.map all_items,
    quests := save_data.quests,
    discovered_locations := save_data.discovered_locations.toFinset,
    level := save_data.level,
    xp := save_data.xp,
    xp_to_next_level := save_data.xp_to_next_level,
    skill_points := save_data.skill_points,
    unlocked_skills := save_data.unlocked_skills,
    class_id := save_data.class_id }
  let player := player.recalculate_stats skill_tree_manager class_manager
  let player := { player with active_abilities := player.active_abilities ++
    (player.unlocked_skills.map fun skill_id =>
      match skill_tree_manager.skills.lookup skill_id with
      | some skill =>
          if skill.skill_type == "active" then [ActiveAbility.ofSkill skill] else []
      | none => []).flatten }
  { player with hp := min player.hp player.max_hp }

/-- Closed form of a save → load round trip: every persisted field is
restored, the live stats are a fresh recalculation from the restored base
values, `hp` is clamped to the recalculated `max_hp`, and the
active-ability list is rebuilt from the unlocked active skills. -/
theorem load_save_closed (p : Player) (all_items : String → Item)
    (skill_tree_manager : SkillTreeManager) (class_manager : ClassManager) :
    load_player_from_save (save_game p) all_items skill_tree_manager class_manager
      = { p with
          id := "player",
          hp := min p.hp (p.recalculate_stats skill_tree_manager class_manager).max_hp,
          max_hp := (p.recalculate_stats skill_tree_manager class_manager).max_hp,
          attack_power :=
            (p.recalculate_stats skill_tree_manager class_manager).attack_power,
          critical_chance :=
            (p.recalculate_stats skill_tree_manager class_manager).critical_chance,
          inventory := (p.inventory.map Item.id).map all_items,
          previous_location := p.current_location,
          status_effects := [],
          active_abilities := (p.unlocked_skills.map fun skill_id =>
            match skill_tree_manager.skills.lookup skill_id with
            | some skill =>
                if skill.skill_type == "active" then [ActiveAbility.ofSkill skill]
                else []
            | none => []).flatten } := by
  simp only [load_player_from_save, save_game, Player.init]
  rw [recalculate_stats_closed, recalculate_stats_closed]
  simp only [classBaseMods, unlockedPassiveMods]
  simp [Finset.sort_toFinset, min_assoc]

/-- C6: a save → load round trip with the same world catalogs restores
`base_max_hp`, `base_attack_power`, `base_critical_chance`, `level`, `xp`,
`xp_to_next_level`, `skill_points`, `unlocked_skills`, `class_id`, `quests`
and `discovered_locations` exactly, rebuilds one ability per unlocked active
skill, and sets the live stats to a fresh recalculation from the restored
base values, with `hp` clamped to the recalculated `max_hp`. -/
theorem save_load_round_trip (p : Player) (all_items : String → Item)
    (skill_tree_manager : SkillTreeManager) (class_manager : ClassManager) :
    (load_player_from_save (save_game p) all_items skill_tree_manager
        class_manager).base_max_hp = p.base_max_hp
    ∧ (load_player_from_save (save_game p) all_items skill_tree_manager
        class_manager).base_attack_power = p.base_attack_power
    ∧ (load_player_from_save (save_game p) all_items skill_tree_manager
        class_manager).base_critical_chance = p.base_critical_chance
    ∧ (load_player_from_save (save_game p) all_items skill_tree_manager
        class_manager).level = p.level
    ∧ (load_player_from_save (save_game p) all_items skill_tree_manager
        class_manager).xp = p.xp
    ∧ (load_player_from_save (save_game p) all_items skill_tree_manager
        class_manager).xp_to_next_level = p.xp_to_next_level
    ∧ (load_player_from_save (save_game p) all_items skill_tree_manager
        class_manager).skill_points = p.skill_points
    ∧ (load_player_from_save (save_game p) all_items skill_tree_manager
        class_manager).unlocked_skills = p.unlocked_skills
    ∧ (load_player_from_save (save_game p) all_items skill_tree_manager
        class_manager).class_id = p.class_id
    ∧ (load_player_from_save (save_game p) all_items skill_tree_manager
        class_manager).quests = p.quests
    ∧ (load_player_from_save (save_game p) all_items skill_tree_manager
        class_manager).discovered_locations = p.discovered_locations
    ∧ (load_player_from_save (save_game p) all_items skill_tree_manager
        class_manager).active_abilities = (p.unlocked_skills.map fun skill_id =>
          match skill_tree_manager.skills.lookup skill_id with
          | some skill =>
              if skill.skill_type == "active" then [ActiveAbility.ofSkill skill]
              else []
          | none => []).flatten
    ∧ (load_player_from_save (save_game p) all_items skill_tree_manager
        class_manager).max_hp
      = (p.recalculate_stats skill_tree_manager class_manager).max_hp
    ∧ (load_player_from_save (save_game p) all_items skill_tree_manager
        class_manager).attack_power
      = (p.recalculate_stats skill_tree_manager class_manager).attack_power
    ∧ (load_player_from_save (save_game p) all_items skill_tree_manager
        class_manager).critical_chance
      = (p.recalculate_stats skill_tree_manager class_manager).critical_chance
    ∧ (load_player_from_save (save_game p) all_items skill_tree_manager
        class_manager).hp
      = min p.hp (load_player_from_save (save_game p) all_items skill_tree_manager
          class_manager).max_hp := by
  rw [load_save_closed]
  exact ⟨rfl, rfl, rfl, rfl, rfl, rfl, rfl, rfl, rfl, rfl, rfl, rfl, rfl, rfl,
    rfl, rfl⟩

/-- The per-skill requirements check of src/managers.py
`SkillTreeManager.get_available_skills` (the `reqs_met` loop). -/
def requirementsMet (p : Player) (skill : Skill) : Bool :=
  skill.requirements.all fun req =>
    match req with
    | .level value => decide (value ≤ p.level)
    | .skill rid => decide (rid ∈ p.unlocked_skills)

/-- All the skill ids of the catalog: `set(self.skills.keys())`. -/
def allSkillIds (skill_tree_manager : SkillTreeManager) : Finset String :=
  (skill_tree_manager.skills.map Prod.fst).toFinset

/-- The `general_skills` set of `get_available_skills`: catalog skills that
belong to the `skill_pool` of no class. -/
def generalSkills (skill_tree_manager : SkillTreeManager)
    (class_manager : ClassManager) : Finset String :=
  (allSkillIds skill_tree_manager).filter fun sid =>
    ¬ ∃ c ∈ class_manager.classes, sid ∈ c.2.skill_pool

/-- The candidate `skill_pool` variable of `get_available_skills`: all
catalog skills, narrowed to general skills plus the own class pool
when the player has a (truthy) class id found in the catalog. -/
def candidatePool (skill_tree_manager : SkillTreeManager)
    (class_manager : ClassManager) (p : Player) : Finset String :=
  match p.class_id with
  | some cid =>
      if cid.isEmpty then allSkillIds skill_tree_manager
      else
        match class_manager.classes.lookup cid with
        | some player_class =>
            generalSkills skill_tree_manager class_manager
              ∪ player_class.skill_pool.toFinset
        | none => allSkillIds skill_tree_manager
  | none => allSkillIds skill_tree_manager

/-- The per-candidate filter of the `for skill_id in skill_pool` loop:
the skill must exist in the catalog, not be unlocked yet, and have its
requirements met. -/
def availableEntry (skill_tree_manager : SkillTreeManager) (p : Player)
    (skill_id : String) : Bool :=
  match skill_tree_manager.skills.lookup skill_id with
  | some skill => !(decide (skill_id ∈ p.unlocked_skills)) && requirementsMet p skill
  | none => false

/-- src/managers.py `SkillTreeManager.get_available_skills(player,
class_manager)`.  Python iterates the candidate set in an unspecified
set-iteration order and returns a list; the embedding returns the set of
the ids of the returned skills. -/
def SkillTreeManager.get_available_skills (skill_tree_manager : SkillTreeManager)
    (p : Player) (class_manager : ClassManager) : Finset String :=
  (candidatePool skill_tree_manager class_manager p).filter fun skill_id =>
    availableEntry skill_tree_manager p skill_id = true

/-- Modelled from the spec: the candidate pool of the claim — the general
pool union the own class pool when a class is chosen, and the general
pool alone before any class is chosen. -/
def claimCandidatePool (skill_tree_manager : SkillTreeManager)
    (class_manager : ClassManager) (p : Player) : Finset String :=
  match p.class_id with
  | some cid =>
      match class_manager.classes.lookup cid with
      | some player_class =>
          generalSkills skill_tree_manager class_manager
            ∪ player_class.skill_pool.toFinset
      | none => generalSkills skill_tree_manager class_manager
  | none => generalSkills skill_tree_manager class_manager

/-- Modelled from the spec: the available-skills query as the claim states
it, filtering the candidate pool of the claim. -/
def claimAvailableSkills (skill_tree_manager : SkillTreeManager)
    (p : Player) (class_manager : ClassManager) : Finset String :=
  (claimCandidatePool skill_tree_manager class_manager p).filter fun skill_id =>
    availableEntry skill_tree_manager p skill_id = true

/-- A one-skill, one-class world exhibiting the difference: `s1` sits in the
knight `skill_pool` and nowhere else. -/
def demoSkill : Skill :=
  { id := "s1", name := "Shield Wall", description := "d",
    skill_type := "passive", cost := 0, requirements := [],
    effect := { stat_mod := [], combat_ability := none } }

/-- The skill catalog of the demonstration world. -/
def demoSkillTree : SkillTreeManager := ⟨[("s1", demoSkill)]⟩

/-- The single class of the demonstration world: its pool holds `s1`. -/
def demoKnight : PlayerClass :=
  { id := "knight", name := "Knight", short_description := "d",
    base_mods := [], starting_skills := [], skill_pool := ["s1"] }

/-- The class catalog of the demonstration world. -/
def demoClasses : ClassManager := ⟨[("knight", demoKnight)]⟩

/-- A fresh player: no class chosen, nothing unlocked. -/
def demoPlayer : Player := Player.init "player" "Hero" "oakhaven" 20 20 5

/-- Counterexample to C7 as stated: before any class is chosen the code
offers every catalog skill — including `s1`, which belongs to the knight
pool — while the query of the claim (general pool only, pre-choice)
excludes it. -/
theorem get_available_skills_pre_choice_counterexample :
    demoPlayer.class_id = none
    ∧ "s1" ∈ demoSkillTree.get_available_skills demoPlayer demoClasses
    ∧ "s1" ∉ claimAvailableSkills demoSkillTree demoPlayer demoClasses
    ∧ demoSkillTree.get_available_skills demoPlayer demoClasses
        ≠ claimAvailableSkills demoSkillTree demoPlayer demoClasses := by
  refine ⟨rfl, ?_, ?_, ?_⟩ <;> decide

/-- The candidate pool of the code coincides with that of the claim except before a
(truthy, catalogued) class choice, where it is the whole catalog. -/
theorem candidatePool_mem (skill_tree_manager : SkillTreeManager)
    (class_manager : ClassManager) (p : Player) (sid : String) :
    sid ∈ candidatePool skill_tree_manager class_manager p ↔
      (match p.class_id with
       | some cid =>
          if cid.isEmpty then sid ∈ allSkillIds skill_tree_manager
          else
            match class_manager.classes.lookup cid with
            | some player_class =>
                sid ∈ generalSkills skill_tree_manager class_manager
                  ∨ sid ∈ player_class.skill_pool
            | none => sid ∈ allSkillIds skill_tree_manager
       | none => sid ∈ allSkillIds skill_tree_manager) := by
  unfold candidatePool
  cases p.class_id with
  | none => exact Iff.rfl
  | some cid =>
      by_cases hemp : cid.isEmpty
      · simp [hemp]
      · simp only [hemp, if_false, Bool.false_eq_true]
        cases class_manager.classes.lookup cid with
        | none => exact Iff.rfl
        | some player_class =>
            simp [Finset.mem_union, List.mem_toFinset]

/-- The per-candidate filter holds exactly for catalogued, not yet unlocked
skills whose requirements are met. -/
theorem availableEntry_iff (skill_tree_manager : SkillTreeManager) (p : Player)
    (skill_id : String) :
    availableEntry skill_tree_manager p skill_id = true ↔
      ∃ skill, skill_tree_manager.skills.lookup skill_id = some skill
        ∧ skill_id ∉ p.unlocked_skills ∧ requirementsMet p skill = true := by
  unfold availableEntry
  cases hlk : skill_tree_manager.skills.lookup skill_id with
  | none => simp
  | some skill => simp

/-- C7 (amended): the available-skills query returns exactly the catalog
skills that are not yet unlocked and whose requirements are met, drawn from
the candidate pool — which is the general pool union the own class pool
once a (truthy, catalogued) class is chosen, and the WHOLE
catalog (class-exclusive skills included) before any class is chosen. -/
theorem get_available_skills_amended (skill_tree_manager : SkillTreeManager)
    (p : Player) (class_manager : ClassManager) (sid : String) :
    sid ∈ skill_tree_manager.get_available_skills p class_manager ↔
      (∃ skill, skill_tree_manager.skills.lookup sid = some skill
        ∧ sid ∉ p.unlocked_skills ∧ requirementsMet p skill = true)
      ∧ (match p.class_id with
         | some cid =>
            if cid.isEmpty then sid ∈ allSkillIds skill_tree_manager
            else
              match class_manager.classes.lookup cid with
              | some player_class =>
                  sid ∈ generalSkills skill_tree_manager class_manager
                    ∨ sid ∈ player_class.skill_pool
              | none => sid ∈ allSkillIds skill_tree_manager
         | none => sid ∈ allSkillIds skill_tree_manager) := by
  unfold SkillTreeManager.get_available_skills
  rw [Finset.mem_filter, candidatePool_mem, availableEntry_iff, and_comm]

/-- One free monster swing during a retreat: a `True` decision stands for
`random.random() < 0.5` landing the hit. -/
def retreatSwing (acc : Player × String) (md : Character × Bool) : Player × String :=
  if md.2 then
    ({ acc.1 with hp := acc.1.hp - md.1.attack_power },
      acc.2 ++ "\nThe " ++ md.1.name ++ " strikes you for "
        ++ toString md.1.attack_power ++ " damage as you escape!")
  else
    (acc.1, acc.2 ++ "\nThe " ++ md.1.name ++ " swipes at you but misses!")

/-- The `retreat` branch of the combat loop, src/main.py lines 309–324
(src/rpg.py lines 1068–1087 agrees on everything the claim touches): every
monster at the current location takes one 50% free swing — injected here as
one boolean decision per monster — then, if the player survives, the
location reverts via `Player.retreat()`; either way the game mode becomes
`explore`.  Returns the player, the message, and the new game mode. -/
def retreatBranch (locations : String → Location) (p : Player)
    (decisions : List Bool) : Player × String × String :=
  let afterSwings := ((locations p.current_location).monsters.zip decisions).foldl
    retreatSwing (p, "You flee from combat!")
  if afterSwings.1.is_alive then
    let escaped := afterSwings.1.retreat
    (escaped, afterSwings.2 ++ "\n\nYou escaped back to "
      ++ (locations escaped.current_location).name ++ ".", "explore")
  else
    (afterSwings.1, afterSwings.2, "explore")

/-- The swing fold subtracts exactly the attack power of the hitting
monsters and touches nothing but `hp`. -/
theorem foldl_retreatSwing (l : List (Character × Bool)) (p : Player)
    (msg : String) :
    (l.foldl retreatSwing (p, msg)).1 =
      { p with hp := p.hp - ((l.filter fun md => md.2).map
          fun md => md.1.attack_power).sum } := by
  induction l generalizing p msg with
  | nil => simp
  | cons md rest ih =>
      rw [List.foldl_cons]
      cases hd : md.2 with
      | true =>
          rw [retreatSwing, if_pos hd, ih]
          simp [hd, sub_sub]
      | false =>
          rw [retreatSwing, if_neg (by simp [hd]), ih]
          simp [hd]

/-- C9: retreating from combat with injected hit decisions (one per monster
at the current location) lowers `hp` by exactly the summed `attack_power`
of the monsters whose decision is a hit; the location reverts to
`previous_location` exactly when the player survives; the game mode becomes
`explore` in both cases. -/
theorem retreat_resolution (locations : String → Location) (p : Player)
    (decisions : List Bool)
    (hlen : decisions.length = (locations p.current_location).monsters.length) :
    (retreatBranch locations p decisions).1.hp
      = p.hp - ((((locations p.current_location).monsters.zip decisions).filter
          fun md => md.2).map fun md => md.1.attack_power).sum
    ∧ (0 < (retreatBranch locations p decisions).1.hp →
        (retreatBranch locations p decisions).1.current_location
          = p.previous_location)
    ∧ ((retreatBranch locations p decisions).1.hp ≤ 0 →
        (retreatBranch locations p decisions).1.current_location
          = p.current_location)
    ∧ (retreatBranch locations p decisions).2.2 = "explore" := by
  have hfold := foldl_retreatSwing
    ((locations p.current_location).monsters.zip decisions) p "You flee from combat!"
  simp only [retreatBranch, hfold]
  by_cases halive : (0 : Int) < p.hp - ((((locations p.current_location).monsters.zip
      decisions).filter fun md => md.2).map fun md => md.1.attack_power).sum
  · rw [if_pos (by simp [Player.is_alive, halive])]
    refine ⟨rfl, fun _ => rfl, fun hdead => ?_, rfl⟩
    simp only [Player.retreat] at hdead
    exact absurd hdead (by omega)
  · rw [if_neg (by simp [Player.is_alive]; omega)]
    refine ⟨rfl, fun hlive => ?_, fun _ => rfl, rfl⟩
    dsimp only at hlive
    exact absurd hlive (by omega)

/-- A goblin for the retreat witness. -/
def demoGoblin : Character :=
  { id := "g:0", name := "Goblin", hp := 7, max_hp := 7, attack_power := 4 }

/-- A gnoll for the retreat witness. -/
def demoGnoll : Character :=
  { id := "g:1", name := "Gnoll", hp := 9, max_hp := 9, attack_power := 6 }

/-- The cave of the retreat witness, holding both monsters. -/
def demoCave : Location :=
  { id := "cave", name := "Cave", exits := [], conditional_exits := [],
    monsters := [demoGoblin, demoGnoll] }

/-- A location catalog mapping every id to the cave. -/
def demoWorld : String → Location := fun _ => demoCave

/-- The player of the retreat witness, standing in the cave. -/
def demoRetreater : Player := Player.init "player" "Hero" "cave" 20 20 5

/-- Witness for `retreat_resolution`: two monsters, the first hits, the
second misses; the player survives on 20 − 4 = 16 HP and the mode resets to
`explore`. -/
theorem retreat_resolution_witness :
    ([true, false] : List Bool).length
        = (demoWorld demoRetreater.current_location).monsters.length
    ∧ (retreatBranch demoWorld demoRetreater [true, false]).1.hp = 20 - 4
    ∧ (retreatBranch demoWorld demoRetreater [true, false]).2.2 = "explore" := by
  have h := retreat_resolution demoWorld demoRetreater [true, false] (by decide)
  exact ⟨by decide, by rw [h.1]; decide, h.2.2.2⟩

/-- src/models.py `Potion.use(target)`: heals the target, clamped at
`max_hp`, and returns the updated target together with the message. -/
def Potion.use (potion : Potion) (target : Character) : Character × String :=
  let heal_amount := potion.heal_amount
  let old_hp := target.hp
  let target' := { target with hp := min (target.hp + heal_amount) target.max_hp }
  let healed_for := target'.hp - old_hp
  if 0 < healed_for then
    (target', target'.name ++ " uses the " ++ potion.name ++ " and heals for "
      ++ toString healed_for ++ " HP. (HP: " ++ toString target'.hp ++ "/"
      ++ toString target'.max_hp ++ ")")
  else
    (target', target'.name ++ " uses the " ++ potion.name
      ++ ", but their health is already full.")

/-- C8: for every target with `hp ≤ max_hp` and every `Potion`, `Potion.use`
leaves `hp_after = min (hp_before + heal_amount) max_hp`; the message reports
a heal amount equal to `hp_after - hp_before` when that difference is
positive, and reports that health is already full when it is zero. -/
theorem potion_use_heals_clamped (potion : Potion) (target : Character)
    (h : target.hp ≤ target.max_hp) :
    (potion.use target).1.hp = min (target.hp + potion.heal_amount) target.max_hp
    ∧ (0 < (potion.use target).1.hp - target.hp →
        (potion.use target).2 =
          target.name ++ " uses the " ++ potion.name ++ " and heals for "
            ++ toString ((potion.use target).1.hp - target.hp) ++ " HP. (HP: "
            ++ toString (potion.use target).1.hp ++ "/"
            ++ toString target.max_hp ++ ")")
    ∧ ((potion.use target).1.hp - target.hp = 0 →
        (potion.use target).2 =
          target.name ++ " uses the " ++ potion.name
            ++ ", but their health is already full.") := by
  simp only [Potion.use]
  split
  next hpos => exact ⟨rfl, fun _ => rfl, fun hz => absurd hz (by dsimp only; omega)⟩
  next hneg => exact ⟨rfl, fun hc => absurd hc hneg, fun _ => rfl⟩

/-- Witness for `potion_use_heals_clamped` at a concrete potion and target. -/
theorem potion_use_heals_clamped_witness :
    ({ id := "t", name := "Hero", hp := 49, max_hp := 50, attack_power := 5
       : Character }).hp ≤ 50
    ∧ (({ id := "p1", name := "Test Potion", description := "d", value := 10,
          heal_amount := 20 : Potion }).use
        { id := "t", name := "Hero", hp := 49, max_hp := 50, attack_power := 5 }).1.hp
      = min (49 + 20) 50 := by
  refine ⟨by decide, ?_⟩
  exact (potion_use_heals_clamped
    { id := "p1", name := "Test Potion", description := "d", value := 10,
      heal_amount := 20 }
    { id := "t", name := "Hero", hp := 49, max_hp := 50, attack_power := 5 }
    (by decide)).1

end TextRpg
